import Mathlib

/-!
# SpectreProxy — verification of the transport-engine specification

A shallow embedding, in Lean 4, of the parts of the SpectreProxy worker
(`src/main.js`, `src/proxies/base.js`, `src/proxies/socket.js`,
`src/proxies/fetch.js`, `src/proxies/dot.js`, `src/proxies/socks5.js`)
that the specification's testable properties talk about, together with
proofs or refutations of those properties.

JavaScript strings are embedded as `String` and manipulated through their
`.data` character lists so that every definition is executable by the
kernel.  Byte buffers (`Uint8Array`) are embedded as `List Nat`, with
`% 256` applied where the typed-array construction truncates.
-/

namespace SpectreProxy

/-! ## Character/string helpers mirroring the JavaScript string primitives -/

/-- JavaScript `String.prototype.toLowerCase` (ASCII range, which is all the
code ever lowercases: header names and strategy names). -/
def lowerStr (s : String) : String :=
  String.mk (s.data.map Char.toLower)

/-- Scan for `needle` at each position of the list: JavaScript
`String.prototype.includes`, searching left to right. -/
def listContains (needle : List Char) : List Char → Bool
  | [] => needle.isEmpty
  | c :: rest => needle.isPrefixOf (c :: rest) || listContains needle rest

/-- JavaScript `s.includes(sub)`. -/
def strIncludes (s sub : String) : Bool :=
  listContains sub.data s.data

/-- JavaScript `String.prototype.split` with a single-character separator:
`"".split(sep)` is `[""]`, and separators at the ends produce empty pieces. -/
def splitChar (sep : Char) : List Char → List (List Char)
  | [] => [[]]
  | c :: cs =>
    if c = sep then [] :: splitChar sep cs
    else
      match splitChar sep cs with
      | [] => [[c]]
      | g :: gs => (c :: g) :: gs

/-- JavaScript `Array.prototype.join("/")`. -/
def joinSegs : List String → String
  | [] => ""
  | [s] => s
  | s :: rest => s ++ "/" ++ joinSegs rest

/-- TextEncoder-style bytes of a string (the sources only feed ASCII here). -/
def strBytes (s : String) : List Nat :=
  s.data.map Char.toNat

/-! ## `ShadowProxy.parseDestinationUrl` (src/main.js)

```js
const parts = url.pathname.split("/").filter(Boolean);
const [auth, protocol, ...path] = parts;
const isValid = auth === config.AUTH_TOKEN;
let dstUrl = config.DEFAULT_DST_URL;
if (isValid && protocol) {
  if (protocol.endsWith(':')) dstUrl = `${protocol}//${path.join("/")}${url.search}`;
  else                        dstUrl = `${protocol}://${path.join("/")}${url.search}`;
}
return dstUrl;
```
-/

structure ShadowConfig where
  AUTH_TOKEN : String
  DEFAULT_DST_URL : String

/-- The segments `url.pathname.split("/").filter(Boolean)`. -/
def splitPathSegments (pathname : String) : List String :=
  ((splitChar '/' pathname.data).map (fun cs => String.mk cs)).filter (fun s => s ≠ "")

/-- The test `protocol.endsWith(':')` for the one-character suffix used in the source. -/
def endsWithColon (s : String) : Bool :=
  s.data.getLast? = some ':'

/-- Function `ShadowProxy.parseDestinationUrl`, src/main.js.  `pathname` and `search`
are the two components of the inbound URL the function inspects. -/
def parseDestinationUrl (cfg : ShadowConfig) (pathname search : String) : String :=
  let parts := splitPathSegments pathname
  let auth := parts.head?
  let protocol := parts[1]?
  let path := parts.drop 2
  -- `auth === config.AUTH_TOKEN`; a destructured-but-missing segment is
  -- `undefined`, which compares unequal to any string.
  let isValid : Bool := auth == some cfg.AUTH_TOKEN
  -- `if (isValid && protocol)`: `protocol` is truthy iff present and nonempty.
  let protocolTruthy : Bool := match protocol with
    | none => false
    | some s => !s.isEmpty
  if isValid && protocolTruthy then
    let p := protocol.getD ""
    if endsWithColon p then p ++ "//" ++ joinSegs path ++ search
    else p ++ "://" ++ joinSegs path ++ search
  else cfg.DEFAULT_DST_URL

/-- C1: whenever the first non-empty path segment differs from the configured
`AUTH_TOKEN` (in particular when the path has no segments at all),
`parseDestinationUrl` yields the configured `DEFAULT_DST_URL`, whatever the
remaining segments and query string are. -/
theorem parseDestinationUrl_token_gate (cfg : ShadowConfig) (pathname search : String)
    (h : (splitPathSegments pathname).head? ≠ some cfg.AUTH_TOKEN) :
    parseDestinationUrl cfg pathname search = cfg.DEFAULT_DST_URL := by
  have hfalse : ((splitPathSegments pathname).head? == some cfg.AUTH_TOKEN) = false := by
    simpa using h
  simp [parseDestinationUrl, hfalse]

/-- Concrete instance of the token gate: wrong token, extra segments and a
query string still land on the default destination. -/
theorem parseDestinationUrl_token_gate_witness :
    parseDestinationUrl ⟨"secret", "https://httpbin.org/get"⟩
      "/wrong/https/example.com/a/b" "?q=1" = "https://httpbin.org/get" :=
  parseDestinationUrl_token_gate ⟨"secret", "https://httpbin.org/get"⟩
    "/wrong/https/example.com/a/b" "?q=1" (by decide)

/-! ## `BaseProxy.filterHeaders` (src/proxies/base.js) and the upstream header
construction of `FetchProxy.connectHttp` (src/proxies/fetch.js)

```js
const HEADER_FILTER_RE = /^(host|accept-encoding|cf-|cdn-|referer|referrer)/i;
const cleanedHeaders = new Headers();
for (const [k, v] of headers) if (!HEADER_FILTER_RE.test(k)) cleanedHeaders.set(k, v);
```

A `Headers` collection is embedded as an association list; iteration over a
JavaScript `Headers` object yields the names already lower-cased, which the
theorems record as the hypothesis `hlow`.  `Headers.set` normalizes the name
to lower case and replaces any entry of that name. -/

/-- The deny list of `HEADER_FILTER_RE`, one entry per regex alternative. -/
def headerFilterList : List String :=
  ["host", "accept-encoding", "cf-", "cdn-", "referer", "referrer"]

/-- The test `HEADER_FILTER_RE.test(k)`: the anchored, case-insensitive regex holds iff
the lower-cased name starts with one of the six alternatives. -/
def headerFilterTest (k : String) : Bool :=
  headerFilterList.any (fun p => p.data.isPrefixOf (k.data.map Char.toLower))

/-- Method `Headers.set(k, v)`: drop any entry under the (lower-cased) name, add the
new one. -/
def headersSet (hs : List (String × String)) (k v : String) : List (String × String) :=
  hs.filter (fun kv => kv.1 ≠ lowerStr k) ++ [(lowerStr k, v)]

/-- Function `BaseProxy.filterHeaders`, src/proxies/base.js. -/
def filterHeaders (hs : List (String × String)) : List (String × String) :=
  hs.foldl (fun acc kv => if headerFilterTest kv.1 then acc else headersSet acc kv.1 kv.2) []

/-- The headers `FetchProxy.connectHttp` hands to the upstream `fetch`:
`filterHeaders` followed by `cleanedHeaders.set("Host", targetUrl.hostname)`
(src/proxies/fetch.js). -/
def fetchUpstreamHeaders (hs : List (String × String)) (hostname : String) :
    List (String × String) :=
  headersSet (filterHeaders hs) "Host" hostname

/-- A name is present in a header collection. -/
def keyMem (k : String) (hs : List (String × String)) : Prop :=
  ∃ v, (k, v) ∈ hs

theorem keyMem_headersSet (k : String) (acc : List (String × String)) (k0 v0 : String) :
    keyMem k (headersSet acc k0 v0) ↔ keyMem k acc ∨ k = lowerStr k0 := by
  by_cases h : k = lowerStr k0
  · subst h
    simp [keyMem, headersSet]
  · simp only [keyMem, headersSet, List.mem_append, List.mem_filter, List.mem_singleton]
    constructor
    · rintro ⟨v, (⟨hv, _⟩ | hv)⟩
      · exact Or.inl ⟨v, hv⟩
      · exact absurd (congrArg Prod.fst hv) h
    · rintro (⟨v, hv⟩ | hk)
      · exact ⟨v, Or.inl ⟨hv, by simpa using h⟩⟩
      · exact absurd hk h

theorem keyMem_filterHeaders_foldl (l : List (String × String)) (k : String) :
    ∀ acc, keyMem k
      (l.foldl (fun acc kv => if headerFilterTest kv.1 then acc else headersSet acc kv.1 kv.2) acc)
      ↔ keyMem k acc ∨
        ∃ k' v, (k', v) ∈ l ∧ lowerStr k' = k ∧ headerFilterTest k' = false := by
  induction l with
  | nil => intro acc; simp
  | cons kv rest ih =>
    intro acc
    rcases kv with ⟨k0, v0⟩
    by_cases h : headerFilterTest k0
    · simp only [List.foldl_cons, if_pos h, ih]
      constructor
      · rintro (hacc | ⟨k', v, hv, hlk, hf⟩)
        · exact Or.inl hacc
        · exact Or.inr ⟨k', v, List.mem_cons_of_mem _ hv, hlk, hf⟩
      · rintro (hacc | ⟨k', v, hv, hlk, hf⟩)
        · exact Or.inl hacc
        · rcases List.mem_cons.mp hv with heq | hv'
          · cases heq; rw [h] at hf; cases hf
          · exact Or.inr ⟨k', v, hv', hlk, hf⟩
    · simp only [List.foldl_cons, if_neg h, ih, keyMem_headersSet]
      constructor
      · rintro ((hacc | hk) | ⟨k', v, hv, hlk, hf⟩)
        · exact Or.inl hacc
        · exact Or.inr ⟨k0, v0, List.mem_cons_self _ _, hk.symm, by simpa using h⟩
        · exact Or.inr ⟨k', v, List.mem_cons_of_mem _ hv, hlk, hf⟩
      · rintro (hacc | ⟨k', v, hv, hlk, hf⟩)
        · exact Or.inl (Or.inl hacc)
        · rcases List.mem_cons.mp hv with heq | hv'
          · refine Or.inl (Or.inr ?_)
            cases heq
            exact hlk.symm
          · exact Or.inr ⟨k', v, hv', hlk, hf⟩

/-- C2: for header collections as a `Headers` object iterates them (names
already lower-cased, recorded by `hlow`), `filterHeaders` keeps a name iff it
does not match `^(host|accept-encoding|cf-|cdn-|referer|referrer)` (case
insensitively), and the only name in the collection `FetchProxy.connectHttp`
forwards upstream that matches the pattern is the freshly re-set `host`. -/
theorem filterHeaders_sanitization (hs : List (String × String)) (hostname k : String)
    (hlow : ∀ kv ∈ hs, lowerStr kv.1 = kv.1) :
    (keyMem k (filterHeaders hs) ↔ (∃ v, (k, v) ∈ hs) ∧ headerFilterTest k = false)
    ∧ (headerFilterTest k = true → keyMem k (fetchUpstreamHeaders hs hostname) → k = "host") := by
  have hfold := keyMem_filterHeaders_foldl hs k []
  have hmain : keyMem k (filterHeaders hs) ↔ (∃ v, (k, v) ∈ hs) ∧ headerFilterTest k = false := by
    rw [filterHeaders, hfold]
    constructor
    · rintro (⟨v, hv⟩ | ⟨k', v, hv, hlk, hf⟩)
      · cases hv
      · have := hlow _ hv
        rw [this] at hlk
        subst hlk
        exact ⟨⟨v, hv⟩, hf⟩
    · rintro ⟨⟨v, hv⟩, hf⟩
      exact Or.inr ⟨k, v, hv, hlow _ hv, hf⟩
  refine ⟨hmain, fun hmatch hk => ?_⟩
  rw [fetchUpstreamHeaders, keyMem_headersSet] at hk
  rcases hk with hk | hk
  · rw [hmain] at hk
    rw [hk.2] at hmatch
    cases hmatch
  · rw [hk]
    decide

/-- Concrete instance of the sanitization property: a `cf-` header present in
the inbound collection is absent from the filtered collection, and the only
deny-listed name forwarded by the fetch transport is `host`. -/
theorem filterHeaders_sanitization_witness :
    (keyMem "cf-connecting-ip" (filterHeaders [("cf-connecting-ip", "1.2.3.4"), ("user-agent", "curl")])
      ↔ (∃ v, ("cf-connecting-ip", v) ∈ [("cf-connecting-ip", "1.2.3.4"), ("user-agent", "curl")])
        ∧ headerFilterTest "cf-connecting-ip" = false)
    ∧ (headerFilterTest "cf-connecting-ip" = true →
        keyMem "cf-connecting-ip"
          (fetchUpstreamHeaders [("cf-connecting-ip", "1.2.3.4"), ("user-agent", "curl")] "example.com") →
        "cf-connecting-ip" = "host") :=
  filterHeaders_sanitization [("cf-connecting-ip", "1.2.3.4"), ("user-agent", "curl")]
    "example.com" "cf-connecting-ip" (by decide)

/-! ## Requests, responses and error handling (src/proxies/base.js) -/

/-- A request as the transports see it: `body` is the remaining content of the
single-read body stream, `bodyUsed` records whether that stream has been
consumed. -/
structure JsRequest where
  method : String
  headers : List (String × String)
  body : List Nat
  bodyUsed : Bool

/-- A response body: textual (error messages), raw bytes (DNS answers), or
whatever an upstream `fetch` produced (left abstract). -/
inductive BodyVal where
  | text (s : String)
  | bytes (b : List Nat)
  | external (tag : Nat)
deriving DecidableEq

structure HttpResponse where
  status : Nat
  body : BodyVal
deriving DecidableEq

/-- Function `BaseProxy.handleError`, src/proxies/base.js:
`new Response(`Error ${context.toLowerCase()}: ${error.message}`, { status })`
with `status` defaulting to 500 at every call site that omits it. -/
def handleError (context msg : String) (status : Nat) : HttpResponse :=
  { status := status, body := .text ("Error " ++ lowerStr context ++ ": " ++ msg) }

/-! ## `SocketProxy` (src/proxies/socket.js) -/

/-- Function `SocketProxy.isCloudflareNetworkError`: the nine recognized message
substrings, tested in source order. -/
def isCloudflareNetworkError (msg : String) : Bool :=
  strIncludes msg "A network issue was detected" ||
  strIncludes msg "Network connection failure" ||
  strIncludes msg "connection failed" ||
  strIncludes msg "timed out" ||
  strIncludes msg "Stream was cancelled" ||
  strIncludes msg "proxy request failed" ||
  strIncludes msg "cannot connect to the specified address" ||
  strIncludes msg "TCP Loop detected" ||
  strIncludes msg "Connections to port 25 are prohibited"

/-- Destination URL as `new URL(dstUrl)` exposes it: `protocol` keeps the
trailing colon, `port` is `none` when the URL does not carry an explicit
port. -/
structure JsURL where
  protocol : String
  hostname : String
  port : Option Nat
  pathname : String
  search : String

/-- The socket-open parameters of `SocketProxy.connectHttp`:

```js
const port = targetUrl.protocol === "https:" ? 443 : 80;
const socket = await connect(
  { hostname: targetUrl.hostname, port: Number(port) },
  { secureTransport: targetUrl.protocol === "https:" ? "on" : "off", allowHalfOpen: false });
```
-/
structure SocketOpen where
  hostname : String
  port : Nat
  tls : Bool
deriving DecidableEq

def socketHttpOpenParams (u : JsURL) : SocketOpen :=
  { hostname := u.hostname
  , port := if u.protocol = "https:" then 443 else 80
  , tls := u.protocol = "https:" }

/-- The configured fallback transports `SocketProxy.connectHttp` can construct. -/
inductive FallbackKind where
  | fetchKind
  | socks5Kind
  | thirdpartyKind
  | cloudproviderKind
deriving DecidableEq

/-- The `switch (fallbackStrategy.toLowerCase())` of `SocketProxy.connectHttp`. -/
def chooseFallback (s : String) : FallbackKind :=
  match lowerStr s with
  | "fetch" => .fetchKind
  | "socks5" => .socks5Kind
  | "thirdparty" => .thirdpartyKind
  | "cloudprovider" => .cloudproviderKind
  | _ => .fetchKind

/-- What `SocketProxy.connectHttp` does with the inbound request: return the
parsed upstream response, re-issue through a fallback transport, or convert
the error via `handleError`. -/
inductive SocketHttpResult where
  | parsed (resp : HttpResponse)
  | fellBack (kind : FallbackKind) (fallbackReq : JsRequest)
  | errored (resp : HttpResponse)

/-- Reading the single-read body stream to completion (the
`req.body.getReader()` loop): yields the bytes and the consumed request. -/
def readBodyStream (r : JsRequest) : List Nat × JsRequest :=
  (r.body, { r with body := [], bodyUsed := true })

structure SocketConfig where
  FALLBACK_PROXY_STRATEGY : Option String

/-- The value `this.config.FALLBACK_PROXY_STRATEGY || "fetch"` (absent or empty falls
back to `"fetch"`). -/
def fallbackStrategyOf (cfg : SocketConfig) : String :=
  match cfg.FALLBACK_PROXY_STRATEGY with
  | none => "fetch"
  | some s => if s = "" then "fetch" else s

/-- Function `SocketProxy.connectHttp`, src/proxies/socket.js.  The network exchange
itself (socket write, `parseResponse`) is abstracted into `outcome`: either
the parsed response or the message of the error thrown during the attempt.
The definition keeps the source's order: the request is cloned for the
fallback *before* the attempt reads the body stream.  The second component of
the result is the body bytes the socket attempt itself wrote upstream. -/
def socketConnectHttp (cfg : SocketConfig) (req : JsRequest)
    (outcome : Except String HttpResponse) : SocketHttpResult × List Nat :=
  -- `const reqForFallback = req.clone();` — an independent, unread copy
  let reqForFallback : JsRequest :=
    { method := req.method, headers := req.headers, body := req.body, bodyUsed := req.bodyUsed }
  -- the attempt serializes the request and copies the body stream to the socket
  let sent := readBodyStream req
  match outcome with
  | .ok resp => (.parsed resp, sent.1)
  | .error msg =>
    if isCloudflareNetworkError msg then
      (.fellBack (chooseFallback (fallbackStrategyOf cfg)) reqForFallback, sent.1)
    else
      (.errored (handleError "Socket connection" msg 500), sent.1)

/-- Function `FetchProxy.connectHttp` forwards `body: req.body` of the request it is
given (src/proxies/fetch.js): the bytes it sends upstream are the body stream
of that request. -/
def fetchSendsBody (r : JsRequest) : List Nat :=
  r.body

/-- C3: for a POST with non-empty body, when the socket attempt fails with a
message classified as network-restricted, the fallback transport is invoked
with a clone taken before the original body stream was read, so the body the
fallback sends equals the original body byte-for-byte. -/
theorem socket_fallback_preserves_body (cfg : SocketConfig) (req : JsRequest) (msg : String)
    (hpost : req.method = "POST") (hbody : req.body ≠ [])
    (hunread : req.bodyUsed = false)
    (hclass : isCloudflareNetworkError msg = true) :
    ∃ k rq, (socketConnectHttp cfg req (.error msg)).1 = .fellBack k rq
      ∧ rq.bodyUsed = false ∧ fetchSendsBody rq = req.body := by
  refine ⟨chooseFallback (fallbackStrategyOf cfg),
    { method := req.method, headers := req.headers, body := req.body, bodyUsed := req.bodyUsed },
    ?_, by simpa using hunread, rfl⟩
  simp [socketConnectHttp, hclass]

/-- Concrete instance of fallback body preservation. -/
theorem socket_fallback_preserves_body_witness :
    ∃ k rq,
      (socketConnectHttp ⟨none⟩ ⟨"POST", [], [1, 2, 3], false⟩ (.error "TCP Loop detected")).1
        = .fellBack k rq
      ∧ rq.bodyUsed = false ∧ fetchSendsBody rq = [1, 2, 3] :=
  socket_fallback_preserves_body ⟨none⟩ ⟨"POST", [], [1, 2, 3], false⟩ "TCP Loop detected"
    (by decide) (by decide) (by decide) (by decide)

theorem listContains_suffix (xs ys : List Char) :
    listContains ys (xs ++ ys) = true := by
  induction xs with
  | nil =>
    cases ys with
    | nil => rfl
    | cons c r =>
      have : (c :: r).isPrefixOf (c :: r) = true := by
        rw [List.isPrefixOf_iff_prefix]
      simp [listContains, this]
  | cons x xs ih =>
    simp only [List.cons_append, listContains]
    rw [show xs.append ys = xs ++ ys from rfl, ih, Bool.or_true]

/-- A string contains its own suffix (`(pre ++ msg).includes(msg)`). -/
theorem strIncludes_append_right (pre msg : String) :
    strIncludes (pre ++ msg) msg = true := by
  rw [strIncludes, String.data_append]
  exact listContains_suffix pre.data msg.data

/-- C4: an error thrown during the socket HTTP attempt triggers the fallback
re-issue iff its message contains one of the nine recognized substrings;
every other error becomes a 500 response whose body contains the error
message. -/
theorem socket_error_classification (cfg : SocketConfig) (req : JsRequest) (msg : String) :
    ((∃ k rq, (socketConnectHttp cfg req (.error msg)).1 = .fellBack k rq) ↔
      (strIncludes msg "A network issue was detected" ||
       strIncludes msg "Network connection failure" ||
       strIncludes msg "connection failed" ||
       strIncludes msg "timed out" ||
       strIncludes msg "Stream was cancelled" ||
       strIncludes msg "proxy request failed" ||
       strIncludes msg "cannot connect to the specified address" ||
       strIncludes msg "TCP Loop detected" ||
       strIncludes msg "Connections to port 25 are prohibited") = true)
    ∧ ((strIncludes msg "A network issue was detected" ||
        strIncludes msg "Network connection failure" ||
        strIncludes msg "connection failed" ||
        strIncludes msg "timed out" ||
        strIncludes msg "Stream was cancelled" ||
        strIncludes msg "proxy request failed" ||
        strIncludes msg "cannot connect to the specified address" ||
        strIncludes msg "TCP Loop detected" ||
        strIncludes msg "Connections to port 25 are prohibited") = false →
        (socketConnectHttp cfg req (.error msg)).1
          = .errored { status := 500, body := .text ("Error socket connection: " ++ msg) }
        ∧ strIncludes ("Error socket connection: " ++ msg) msg = true) := by
  have hdef : isCloudflareNetworkError msg =
      (strIncludes msg "A network issue was detected" ||
       strIncludes msg "Network connection failure" ||
       strIncludes msg "connection failed" ||
       strIncludes msg "timed out" ||
       strIncludes msg "Stream was cancelled" ||
       strIncludes msg "proxy request failed" ||
       strIncludes msg "cannot connect to the specified address" ||
       strIncludes msg "TCP Loop detected" ||
       strIncludes msg "Connections to port 25 are prohibited") := rfl
  constructor
  · rw [← hdef]
    by_cases h : isCloudflareNetworkError msg
    · simp only [h, iff_true]
      exact ⟨chooseFallback (fallbackStrategyOf cfg),
        { method := req.method, headers := req.headers, body := req.body, bodyUsed := req.bodyUsed },
        by simp [socketConnectHttp, h]⟩
    · simp only [Bool.not_eq_true] at h
      simp only [h, Bool.false_eq_true, iff_false, not_exists]
      intro k rq
      simp [socketConnectHttp, h]
  · intro h
    rw [← hdef] at h
    have hbody : handleError "Socket connection" msg 500
        = { status := 500, body := .text ("Error socket connection: " ++ msg) } := by
      have : ("Error " ++ lowerStr "Socket connection" ++ ": " ++ msg)
          = "Error socket connection: " ++ msg := by
        have h1 : lowerStr "Socket connection" = "socket connection" := by decide
        rw [h1]
        rfl
      simp [handleError, this]
    refine ⟨?_, strIncludes_append_right "Error socket connection: " msg⟩
    simp [socketConnectHttp, h, hbody]

/-- Concrete instance of the error classification: `"Stream was cancelled"`
falls back, `"boom"` becomes a 500 carrying the message. -/
theorem socket_error_classification_witness :
    ((strIncludes "boom" "A network issue was detected" ||
      strIncludes "boom" "Network connection failure" ||
      strIncludes "boom" "connection failed" ||
      strIncludes "boom" "timed out" ||
      strIncludes "boom" "Stream was cancelled" ||
      strIncludes "boom" "proxy request failed" ||
      strIncludes "boom" "cannot connect to the specified address" ||
      strIncludes "boom" "TCP Loop detected" ||
      strIncludes "boom" "Connections to port 25 are prohibited") = false)
    ∧ (socketConnectHttp ⟨none⟩ ⟨"GET", [], [], false⟩ (.error "boom")).1
        = .errored { status := 500, body := .text ("Error socket connection: " ++ "boom") } := by
  refine ⟨by decide, ?_⟩
  exact ((socket_error_classification ⟨none⟩ ⟨"GET", [], [], false⟩ "boom").2 (by decide)).1

/-! ## C6: the socket-open parameters of the HTTP path -/

/-- C6 as the specification states it (destination port honored when
explicit), refuted below: `SocketProxy.connectHttp` derives the port from the
scheme only, ignoring `dst.port`.  A destination of `https://example.com:8443`
is opened on port 443. -/
theorem socket_open_params_counterexample :
    (socketHttpOpenParams
      { protocol := "https:", hostname := "example.com", port := some 8443
      , pathname := "/", search := "" }).port = 443
    ∧ ¬ (socketHttpOpenParams
      { protocol := "https:", hostname := "example.com", port := some 8443
      , pathname := "/", search := "" }).port = 8443 := by
  constructor
  · decide
  · decide

/-- C6 (amended): the HTTP path of the socket transport opens the socket to
`(dst.hostname, 443/80)` — 443 for `https`, 80 otherwise — ignoring any
explicit port in the destination URL, with TLS on iff the scheme is
`https`. -/
theorem socket_open_params (u : JsURL) :
    (socketHttpOpenParams u).hostname = u.hostname
    ∧ (socketHttpOpenParams u).port = (if u.protocol = "https:" then 443 else 80)
    ∧ ((socketHttpOpenParams u).tls = true ↔ u.protocol = "https:") := by
  refine ⟨rfl, rfl, ?_⟩
  simp [socketHttpOpenParams]

/-! ## `BaseProxy.parseResponse` and `BaseProxy.readChunks`
(src/proxies/base.js)

`parseResponse` accumulates bytes until the header terminator, then decides
the body transfer mode:

```js
const isChunked = headers.get("transfer-encoding")?.includes("chunked");
const contentLength = parseInt(headers.get("content-length") || "0", 10);
const data = buff.slice(headerEnd + 4);
```

and the producer either drains `readChunks(reader, data)` or runs the
fixed-length loop `while (received < contentLength)`.

The embedding takes the parsed header list, the body bytes `data` already
buffered when the headers completed, and the remaining reader chunks
`rest`. -/

/-- Comma-joining of `Headers.append`-accumulated values, as `Headers.get`
returns them. -/
def joinComma : List String → String
  | [] => ""
  | [s] => s
  | s :: rest => s ++ ", " ++ joinComma rest

/-- Method `Headers.get`: case-insensitive lookup, `null` when absent. -/
def hGet (hs : List (String × String)) (name : String) : Option String :=
  match (hs.filter (fun kv => kv.1 = lowerStr name)).map (fun kv => kv.2) with
  | [] => none
  | vs => some (joinComma vs)

/-- Decimal digit of an ASCII character. -/
def decDigitValue (c : Char) : Option Nat :=
  if 48 ≤ c.toNat ∧ c.toNat ≤ 57 then some (c.toNat - 48) else none

def parseDecLoop : List Char → Nat → Nat
  | [], acc => acc
  | c :: cs, acc =>
    match decDigitValue c with
    | some d => parseDecLoop cs (acc * 10 + d)
    | none => acc

/-- The call `parseInt(s, 10)` on the strings the parser feeds it: leading spaces are
skipped, then the maximal run of decimal digits is read; `none` is `NaN`. -/
def parseDecStr (s : String) : Option Nat :=
  match s.data.dropWhile (fun c => c = ' ') with
  | [] => none
  | c :: cs =>
    match decDigitValue c with
    | none => none
    | some _ => some (parseDecLoop (c :: cs) 0)

/-- The check `headers.get("transfer-encoding")?.includes("chunked")`, coerced to the
boolean the `if` sees (`undefined` is falsy). -/
def respIsChunked (hs : List (String × String)) : Bool :=
  match hGet hs "transfer-encoding" with
  | none => false
  | some v => strIncludes v "chunked"

/-- The value `parseInt(headers.get("content-length") || "0", 10)`; `none` is `NaN`. -/
def respContentLength (hs : List (String × String)) : Option Nat :=
  let s := match hGet hs "content-length" with
    | none => "0"
    | some v => if v = "" then "0" else v
  parseDecStr s

/-- The guard `received < contentLength` where `contentLength` may be `NaN` (any
comparison with `NaN` is false). -/
def ltContentLength (received : Nat) : Option Nat → Bool
  | some n => received < n
  | none => false

/-- The fixed-length producer loop: check `received < contentLength`, then
read the next reader chunk, enqueue it whole, and repeat. -/
def fixedLoop (cl : Option Nat) : Nat → List (List Nat) → List Nat
  | received, rest =>
    if ltContentLength received cl then
      match rest with
      | [] => []
      | c :: cs => c ++ fixedLoop cl (received + c.length) cs
    else []

/-! ### `readChunks`: the chunked-transfer decoder -/

/-- First position `i` with `buff[i] = 13`, `buff[i+1] = 10` (the CRLF scan
loop of `readChunks`). -/
def findCRLF : List Nat → Option Nat
  | [] => none
  | [_] => none
  | a :: b :: rest =>
    if a = 13 ∧ b = 10 then some 0
    else (findCRLF (b :: rest)).map (· + 1)

/-- Hex digit value of an ASCII byte. -/
def hexDigitValue (b : Nat) : Option Nat :=
  if 48 ≤ b ∧ b ≤ 57 then some (b - 48)
  else if 97 ≤ b ∧ b ≤ 102 then some (b - 87)
  else if 65 ≤ b ∧ b ≤ 70 then some (b - 55)
  else none

def parseHexLoop : List Nat → Nat → Nat
  | [], acc => acc
  | b :: bs, acc =>
    match hexDigitValue b with
    | some d => parseHexLoop bs (acc * 16 + d)
    | none => acc

/-- The call `parseInt(sizeStr, 16)` on the decoded size line: the maximal run of hex
digits, `none` for `NaN` (the optional sign/`0x` prefix never occurs on a
chunk-size line and is not modelled). -/
def parseHexBytes : List Nat → Option Nat
  | [] => none
  | b :: bs =>
    match hexDigitValue b with
    | none => none
    | some _ => some (parseHexLoop (b :: bs) 0)

theorem findCRLF_le : ∀ (l : List Nat) (p : Nat), findCRLF l = some p → p + 2 ≤ l.length
  | [], p => by simp [findCRLF]
  | [_], p => by simp [findCRLF]
  | a :: b :: rest, p => by
    simp only [findCRLF]
    split
    · intro h
      cases h
      simp
    · intro h
      obtain ⟨q, hq, hpq⟩ := Option.map_eq_some'.mp h
      have := findCRLF_le (b :: rest) q hq
      simp only [List.length_cons] at this ⊢
      omega

/-- Generator `BaseProxy.readChunks` run over a fully buffered input (the reader is
exhausted; `buff` holds everything that will ever arrive).  Each loop
iteration finds the CRLF ending the size line, parses the hex size, breaks on
0/`NaN`, errors when the buffer cannot complete the chunk, and otherwise
yields `size` payload bytes and drops the trailing CRLF. -/
def readChunksAll (buff : List Nat) : Except String (List (List Nat)) :=
  match hpos : findCRLF buff with
  | none => .ok []
  | some pos =>
    match parseHexBytes (buff.take pos) with
    | none => .ok []
    | some 0 => .ok []
    | some (n + 1) =>
      if (buff.drop (pos + 2)).length < (n + 1) + 2 then
        .error "Unexpected EOF in chunked encoding"
      else
        match readChunksAll ((buff.drop (pos + 2)).drop ((n + 1) + 2)) with
        | .error e => .error e
        | .ok chunks => .ok ((buff.drop (pos + 2)).take (n + 1) :: chunks)
termination_by buff.length
decreasing_by
  have hple := findCRLF_le _ _ hpos
  simp only [List.length_drop]
  omega

/-- The response body the producer task emits, as a function of the parsed
headers, the already-buffered body bytes, and the remaining reader chunks. -/
def responseBody (headers : List (String × String)) (data : List Nat)
    (rest : List (List Nat)) : Except String (List Nat) :=
  if respIsChunked headers then
    (readChunksAll (data ++ rest.flatten)).map List.flatten
  else
    .ok (data ++ fixedLoop (respContentLength headers) data.length rest)

/-- C5 as stated is refuted: with neither a `transfer-encoding` nor a
`content-length` header, the claim expects the body to stream until
end-of-stream (here `[104, 105]`), but the parser takes the fixed-length
branch with `contentLength = parseInt("0") = 0` and emits only the
already-buffered bytes (here none). -/
theorem parseResponse_transfer_mode_counterexample :
    responseBody [] [] [[104, 105]] = .ok []
    ∧ ¬ responseBody [] [] [[104, 105]] = .ok [104, 105] := by
  have h0 : responseBody [] [] [[104, 105]] = .ok [] := rfl
  refine ⟨h0, ?_⟩
  rw [h0]
  intro h
  simp at h

/-- C5 (amended): `parseResponse` decides the transfer mode from the parsed
headers: chunked iff `transfer-encoding` contains `"chunked"`; otherwise the
fixed-length loop bounded by `content-length`, which defaults to `"0"` when
the header is absent — so with neither header only the bytes already buffered
past the header terminator are emitted, not the rest of the stream. -/
theorem parseResponse_transfer_mode (headers : List (String × String)) (data : List Nat)
    (rest : List (List Nat)) :
    (respIsChunked headers = true ↔
      ∃ v, hGet headers "transfer-encoding" = some v ∧ strIncludes v "chunked" = true)
    ∧ (respIsChunked headers = true →
      responseBody headers data rest = (readChunksAll (data ++ rest.flatten)).map List.flatten)
    ∧ (respIsChunked headers = false →
      responseBody headers data rest
        = .ok (data ++ fixedLoop (respContentLength headers) data.length rest))
    ∧ (hGet headers "transfer-encoding" = none → hGet headers "content-length" = none →
      responseBody headers data rest = .ok data) := by
  refine ⟨?_, fun h => by simp [responseBody, h], fun h => by simp [responseBody, h],
    fun hte hcl => ?_⟩
  · constructor
    · intro h
      rw [respIsChunked] at h
      cases hv : hGet headers "transfer-encoding" with
      | none => rw [hv] at h; cases h
      | some v => rw [hv] at h; exact ⟨v, rfl, h⟩
    · rintro ⟨v, hv, hc⟩
      rw [respIsChunked, hv]
      exact hc
  · have hchunked : respIsChunked headers = false := by
      rw [respIsChunked, hte]
    have hcl0 : respContentLength headers = some 0 := by
      rw [respContentLength]
      simp only [hcl]
      decide
    have hloop : fixedLoop (some 0) data.length rest = [] := by
      rw [fixedLoop.eq_def]
      simp [ltContentLength]
    simp [responseBody, hchunked, hcl0, hloop]

/-- Concrete instance of the amended transfer-mode selection: a
`content-length: 3` response takes the fixed-length branch. -/
theorem parseResponse_transfer_mode_witness :
    responseBody [("content-length", "3")] [1] [[2, 3], [4]]
      = .ok ([1] ++ fixedLoop (respContentLength [("content-length", "3")]) [1].length
          [[2, 3], [4]]) :=
  (parseResponse_transfer_mode [("content-length", "3")] [1] [[2, 3], [4]]).2.2.1 (by decide)

/-! ### C8: well-formed chunked encodings round-trip through `readChunks` -/

/-- ASCII byte of a hex digit (lower-case letters). -/
def hexDigitByte (d : Nat) : Nat :=
  if d < 10 then 48 + d else 87 + d

/-- Big-endian hex digit values of `n`, fuelled (`fuel ≥ n` suffices). -/
def hexDigitsAux : Nat → Nat → List Nat
  | 0, _ => []
  | fuel + 1, n => if n = 0 then [] else hexDigitsAux fuel (n / 16) ++ [n % 16]

/-- ASCII bytes of the hex representation of a (positive) chunk size. -/
def hexBytesBE (n : Nat) : List Nat :=
  (hexDigitsAux n n).map hexDigitByte

/-- One well-formed chunk: hex size line, CRLF, the payload, CRLF. -/
def encodeChunk (c : List Nat) : List Nat :=
  hexBytesBE c.length ++ [13, 10] ++ c ++ [13, 10]

/-- A well-formed chunked body: the chunks in order, then the zero-size
terminating chunk. -/
def encodeChunked (cs : List (List Nat)) : List Nat :=
  (cs.map encodeChunk).flatten ++ [48, 13, 10, 13, 10]

theorem hexDigitValue_hexDigitByte (d : Nat) (hd : d < 16) :
    hexDigitValue (hexDigitByte d) = some d := by
  rw [hexDigitByte]
  by_cases h : d < 10
  · rw [if_pos h, hexDigitValue, if_pos (by omega)]
    congr 1
    omega
  · rw [if_neg h, hexDigitValue, if_neg (by omega), if_pos (by omega)]
    congr 1
    omega

theorem hexDigitsAux_lt (fuel : Nat) : ∀ n d, d ∈ hexDigitsAux fuel n → d < 16 := by
  induction fuel with
  | zero => intro n d h; simp [hexDigitsAux] at h
  | succ fuel ih =>
    intro n d h
    rw [hexDigitsAux] at h
    by_cases hn : n = 0
    · rw [if_pos hn] at h
      simp at h
    · rw [if_neg hn] at h
      rcases List.mem_append.mp h with h' | h'
      · exact ih _ _ h'
      · have : d = n % 16 := by simpa using h'
        subst this
        exact Nat.mod_lt _ (by omega)

theorem hexDigitsAux_zero (fuel : Nat) : hexDigitsAux fuel 0 = [] := by
  cases fuel <;> rfl

theorem hexDigitsAux_ne_nil (fuel n : Nat) (h1 : 1 ≤ n) (h2 : n ≤ fuel) :
    hexDigitsAux fuel n ≠ [] := by
  cases fuel with
  | zero => omega
  | succ fuel =>
    rw [hexDigitsAux, if_neg (by omega)]
    simp

theorem not_mem_13_hexBytesBE (n : Nat) : 13 ∉ hexBytesBE n := by
  rw [hexBytesBE]
  intro h
  rcases List.mem_map.mp h with ⟨d, hd, hb⟩
  have := hexDigitsAux_lt n n d hd
  rw [hexDigitByte] at hb
  split at hb <;> omega

theorem findCRLF_prefix (h r : List Nat) (h13 : 13 ∉ h) :
    findCRLF (h ++ 13 :: 10 :: r) = some h.length := by
  induction h with
  | nil =>
    rw [List.nil_append, findCRLF, if_pos ⟨rfl, rfl⟩]
    rfl
  | cons c h' ih =>
    have hc : c ≠ 13 := fun hc => h13 (by rw [hc]; exact List.mem_cons_self _ _)
    have h13' : 13 ∉ h' := fun hm => h13 (List.mem_cons_of_mem _ hm)
    cases h' with
    | nil =>
      simp only [List.cons_append, List.nil_append]
      rw [findCRLF, if_neg (by tauto), findCRLF, if_pos ⟨rfl, rfl⟩]
      rfl
    | cons d h'' =>
      simp only [List.cons_append]
      rw [findCRLF, if_neg (by tauto)]
      have := ih h13'
      simp only [List.cons_append] at this
      rw [this]
      rfl

theorem parseHexLoop_map (ds : List Nat) (hds : ∀ d ∈ ds, d < 16) : ∀ acc,
    parseHexLoop (ds.map hexDigitByte) acc = ds.foldl (fun a d => a * 16 + d) acc := by
  induction ds with
  | nil => intro acc; rfl
  | cons d ds ih =>
    intro acc
    have hd : d < 16 := hds d (List.mem_cons_self _ _)
    rw [List.map_cons, parseHexLoop.eq_def]
    simp only [hexDigitValue_hexDigitByte d hd, List.foldl_cons]
    exact ih (fun x hx => hds x (List.mem_cons_of_mem _ hx)) _

theorem hexDigitsAux_foldl : ∀ fuel n acc, 1 ≤ n → n ≤ fuel →
    (hexDigitsAux fuel n).foldl (fun a d => a * 16 + d) acc
      = acc * 16 ^ (hexDigitsAux fuel n).length + n := by
  intro fuel
  induction fuel with
  | zero => intro n acc h1 h2; omega
  | succ fuel ih =>
    intro n acc h1 _
    rw [hexDigitsAux, if_neg (by omega), List.foldl_append]
    by_cases hq : n / 16 = 0
    · have hn16 : n < 16 := by
        rcases Nat.lt_or_ge n 16 with h | h
        · exact h
        · exact absurd hq (by have := Nat.div_le_div_right (c := 16) h; simp at this; omega)
      rw [hq, hexDigitsAux_zero]
      simp only [List.foldl_nil, List.foldl_cons, List.nil_append, List.length_cons,
        List.length_nil, pow_one, zero_add]
      rw [Nat.mod_eq_of_lt hn16]
    · have hq1 : 1 ≤ n / 16 := by omega
      have hq2 : n / 16 ≤ fuel := by
        have : n / 16 < n := Nat.div_lt_self (by omega) (by omega)
        omega
      rw [ih (n / 16) acc hq1 hq2]
      simp only [List.foldl_cons, List.foldl_nil, List.length_append, List.length_cons,
        List.length_nil]
      have hdm := Nat.div_add_mod n 16
      calc (acc * 16 ^ (hexDigitsAux fuel (n / 16)).length + n / 16) * 16 + n % 16
          = acc * (16 ^ (hexDigitsAux fuel (n / 16)).length * 16)
            + (16 * (n / 16) + n % 16) := by ring
        _ = acc * 16 ^ ((hexDigitsAux fuel (n / 16)).length + (0 + 1)) + n := by
            rw [hdm, zero_add, pow_succ]

theorem parseHexBytes_hexBytesBE (n : Nat) (h1 : 1 ≤ n) :
    parseHexBytes (hexBytesBE n) = some n := by
  obtain ⟨d0, ds, hds⟩ := List.exists_cons_of_ne_nil (hexDigitsAux_ne_nil n n h1 le_rfl)
  have hbound : ∀ d ∈ d0 :: ds, d < 16 := by
    rw [← hds]
    exact fun d hd => hexDigitsAux_lt n n d hd
  have hd0 : d0 < 16 := hbound d0 (List.mem_cons_self _ _)
  rw [hexBytesBE, hds, List.map_cons, parseHexBytes.eq_def]
  simp only [hexDigitValue_hexDigitByte d0 hd0]
  rw [← List.map_cons, parseHexLoop_map _ hbound 0, ← hds,
    hexDigitsAux_foldl n n 0 h1 le_rfl, zero_mul, zero_add]

theorem readChunksAll_encodeChunk (c r : List Nat) (hc : c ≠ []) :
    readChunksAll (encodeChunk c ++ r) = (readChunksAll r).map (fun l => c :: l) := by
  have hlen : 1 ≤ c.length := List.length_pos.mpr hc
  have hform : encodeChunk c ++ r
      = hexBytesBE c.length ++ 13 :: 10 :: (c ++ 13 :: 10 :: r) := by
    simp [encodeChunk, List.append_assoc]
  have hfind : findCRLF (encodeChunk c ++ r) = some (hexBytesBE c.length).length := by
    rw [hform]
    exact findCRLF_prefix _ _ (not_mem_13_hexBytesBE _)
  have htake : (encodeChunk c ++ r).take (hexBytesBE c.length).length = hexBytesBE c.length := by
    rw [hform]
    exact List.take_left _ _
  have hparse : parseHexBytes ((encodeChunk c ++ r).take (hexBytesBE c.length).length)
      = some c.length := by
    rw [htake]
    exact parseHexBytes_hexBytesBE _ hlen
  have hdrop : (encodeChunk c ++ r).drop ((hexBytesBE c.length).length + 2)
      = c ++ 13 :: 10 :: r := by
    rw [hform, show hexBytesBE c.length ++ 13 :: 10 :: (c ++ 13 :: 10 :: r)
      = (hexBytesBE c.length ++ [13, 10]) ++ (c ++ 13 :: 10 :: r) by simp [List.append_assoc]]
    exact List.drop_left' (by simp)
  have hdrop2 : (c ++ 13 :: 10 :: r).drop (c.length + 2) = r := by
    rw [show c ++ 13 :: 10 :: r = (c ++ [13, 10]) ++ r by simp [List.append_assoc]]
    exact List.drop_left' (by simp)
  have htake2 : (c ++ 13 :: 10 :: r).take c.length = c := List.take_left _ _
  rw [readChunksAll.eq_def]
  split
  · rename_i hnone
    rw [hfind] at hnone
    cases hnone
  · rename_i pos hpos
    rw [hfind] at hpos
    injection hpos with hpos
    subst hpos
    split
    · rename_i hnone
      rw [hparse] at hnone
      cases hnone
    · rename_i h0
      rw [hparse] at h0
      injection h0 with h0
      omega
    · rename_i m hm
      rw [hparse] at hm
      injection hm with hm
      rw [hdrop]
      have hmc : m + 1 = c.length := hm.symm
      rw [if_neg (by
        rw [List.length_append]
        simp only [List.length_cons]
        omega)]
      rw [show (m + 1) + 2 = c.length + 2 by omega, hdrop2,
        show (m + 1 : Nat) = c.length from hmc, htake2]
      cases hrec : readChunksAll r with
      | error e => rfl
      | ok chunks => rfl

/-- C8: feeding any well-formed chunked encoding — hex size line, CRLF,
payload, CRLF, repeated, terminated by a zero-size chunk — into `readChunks`
yields exactly the chunk payloads in order (hence their concatenation, with
no CRLF bytes included). -/
theorem readChunks_roundtrip (cs : List (List Nat)) (hcs : ∀ c ∈ cs, c ≠ []) :
    readChunksAll (encodeChunked cs) = .ok cs
    ∧ (readChunksAll (encodeChunked cs)).map List.flatten = .ok cs.flatten := by
  have hmain : readChunksAll (encodeChunked cs) = .ok cs := by
    induction cs with
    | nil =>
      rw [encodeChunked]
      simp only [List.map_nil, List.flatten_nil, List.nil_append]
      rw [readChunksAll.eq_def]
      rfl
    | cons c cs ih =>
      have hc : c ≠ [] := hcs c (List.mem_cons_self _ _)
      have hcs' : ∀ x ∈ cs, x ≠ [] := fun x hx => hcs x (List.mem_cons_of_mem _ hx)
      have hsplit : encodeChunked (c :: cs) = encodeChunk c ++ encodeChunked cs := by
        simp [encodeChunked, List.append_assoc]
      rw [hsplit, readChunksAll_encodeChunk c _ hc, ih hcs']
      rfl
  exact ⟨hmain, by rw [hmain]; rfl⟩

/-- Concrete instance of the chunked round-trip:
`"2\r\nhi\r\n1\r\n!\r\n0\r\n\r\n"` decodes to the payloads `"hi"`, `"!"`. -/
theorem readChunks_roundtrip_witness :
    readChunksAll (encodeChunked [[104, 105], [33]]) = .ok [[104, 105], [33]]
    ∧ (readChunksAll (encodeChunked [[104, 105], [33]])).map List.flatten
      = .ok [104, 105, 33] :=
  readChunks_roundtrip [[104, 105], [33]] (by decide)

/-! ## `BaseProxy.packTextFrame` (src/proxies/base.js)

```js
const FIN_AND_OP = 0x81;
const maskBit = 0x80;
if (len < 126) header = [FIN_AND_OP, maskBit | len];
else if (len < 65536) header = [FIN_AND_OP, maskBit | 126, (len >> 8) & 0xff, len & 0xff];
else throw new Error("Payload too large");
maskedPayload[i] = payload[i] ^ mask[i % 4];
return concatUint8Arrays(header, mask, maskedPayload);
```

The 4-byte random mask is a parameter of the embedding (the source draws it
from `crypto.getRandomValues`). -/

/-- The masking loop `maskedPayload[i] = payload[i] ^ mask[i % 4]`, with `i`
carried explicitly. -/
def maskPayload (mask : List Nat) : Nat → List Nat → List Nat
  | _, [] => []
  | i, b :: bs => (b ^^^ mask.getD (i % 4) 0) :: maskPayload mask (i + 1) bs

def packTextFrame (mask payload : List Nat) : Except String (List Nat) :=
  if payload.length < 126 then
    .ok ([0x81, 0x80 ||| payload.length] ++ mask ++ maskPayload mask 0 payload)
  else if payload.length < 65536 then
    .ok ([0x81, 0x80 ||| 126, (payload.length >>> 8) &&& 0xff, payload.length &&& 0xff]
      ++ mask ++ maskPayload mask 0 payload)
  else
    .error "Payload too large"

theorem or_128_eq_add (l : Nat) (h : l < 128) : 128 ||| l = 128 + l := by
  revert h
  revert l
  decide

theorem maskPayload_getD (mask : List Nat) : ∀ (bs : List Nat) (i j : Nat), j < bs.length →
    (maskPayload mask i bs).getD j 0 = bs.getD j 0 ^^^ mask.getD ((i + j) % 4) 0 := by
  intro bs
  induction bs with
  | nil => intro i j h; simp at h
  | cons b bs ih =>
    intro i j h
    cases j with
    | zero => simp [maskPayload]
    | succ j =>
      simp only [maskPayload, List.getD_cons_succ]
      rw [ih (i + 1) j (by simpa using h)]
      congr 2
      omega

/-- C9: for payloads shorter than 65536 bytes, `packTextFrame` emits the
`0x81` opcode byte, sets the MASK bit, uses the 7-bit length form below 126
and the 7+16-bit big-endian form otherwise, and masks so that
`payload[i] = masked[i] XOR mask[i mod 4]`; longer payloads throw
`"Payload too large"`. -/
theorem packTextFrame_spec (mask payload : List Nat) (hm : mask.length = 4) :
    (payload.length < 126 →
      packTextFrame mask payload
        = .ok ([129, 128 + payload.length] ++ mask ++ maskPayload mask 0 payload))
    ∧ (126 ≤ payload.length → payload.length < 65536 →
      packTextFrame mask payload
        = .ok ([129, 254, payload.length / 256, payload.length % 256]
            ++ mask ++ maskPayload mask 0 payload)
      ∧ payload.length / 256 * 256 + payload.length % 256 = payload.length)
    ∧ (65536 ≤ payload.length →
      packTextFrame mask payload = .error "Payload too large")
    ∧ (∀ i, i < payload.length →
      (maskPayload mask 0 payload).getD i 0 ^^^ mask.getD (i % 4) 0 = payload.getD i 0) := by
  refine ⟨fun h => ?_, fun h1 h2 => ⟨?_, ?_⟩, fun h => ?_, fun i hi => ?_⟩
  · rw [packTextFrame, if_pos h, or_128_eq_add _ (by omega)]
  · rw [packTextFrame, if_neg (by omega), if_pos h2]
    have hb2 : (payload.length >>> 8) &&& 0xff = payload.length / 256 := by
      rw [Nat.shiftRight_eq_div_pow]
      have h255 : (0xff : Nat) = 2 ^ 8 - 1 := rfl
      rw [h255, Nat.and_pow_two_sub_one_eq_mod]
      exact Nat.mod_eq_of_lt (by omega)
    have hb3 : payload.length &&& 0xff = payload.length % 256 := by
      have h255 : (0xff : Nat) = 2 ^ 8 - 1 := rfl
      rw [h255, Nat.and_pow_two_sub_one_eq_mod]
    rw [hb2, hb3]
    norm_num
    decide
  · omega
  · rw [packTextFrame, if_neg (by omega), if_neg (by omega)]
  · rw [maskPayload_getD mask payload 0 i hi, Nat.zero_add, Nat.xor_cancel_right]

/-- Concrete instance of the frame format on a 2-byte payload and a fixed
mask. -/
theorem packTextFrame_spec_witness :
    (([104, 105] : List Nat).length < 126 →
      packTextFrame [1, 2, 3, 4] [104, 105]
        = .ok ([129, 128 + ([104, 105] : List Nat).length]
            ++ [1, 2, 3, 4] ++ maskPayload [1, 2, 3, 4] 0 [104, 105]))
    ∧ (126 ≤ ([104, 105] : List Nat).length → ([104, 105] : List Nat).length < 65536 →
      packTextFrame [1, 2, 3, 4] [104, 105]
        = .ok ([129, 254, ([104, 105] : List Nat).length / 256,
              ([104, 105] : List Nat).length % 256]
            ++ [1, 2, 3, 4] ++ maskPayload [1, 2, 3, 4] 0 [104, 105])
      ∧ ([104, 105] : List Nat).length / 256 * 256 + ([104, 105] : List Nat).length % 256
          = ([104, 105] : List Nat).length)
    ∧ (65536 ≤ ([104, 105] : List Nat).length →
      packTextFrame [1, 2, 3, 4] [104, 105] = .error "Payload too large")
    ∧ (∀ i, i < ([104, 105] : List Nat).length →
      (maskPayload [1, 2, 3, 4] 0 [104, 105]).getD i 0 ^^^ [1, 2, 3, 4].getD (i % 4) 0
        = [104, 105].getD i 0) :=
  packTextFrame_spec [1, 2, 3, 4] [104, 105] (by decide)

/-! ## `DoTProxy.handleDnsQuery` (src/proxies/dot.js)

The DoT socket exchange (connect, length-prefixed write, read-to-EOF) is
abstracted into `socketOutcome`: the concatenated response bytes on success,
or the thrown error's message.  The DoH-via-`fetch` fallback is likewise
`fetchOutcome`.  A double failure reaches
`this.handleError(fallbackError, 'DoT and subsequent DoH fallback')`, whose
omitted third argument defaults to 500. -/

def dotHandleDnsQuery (req : JsRequest) (socketOutcome : Except String (List Nat))
    (fetchOutcome : Except String HttpResponse) : HttpResponse :=
  if req.method ≠ "POST" ∨ hGet req.headers "content-type" ≠ some "application/dns-message" then
    { status := 400, body := .text "This is a DNS proxy. Please use a DoT client." }
  else
    match socketOutcome with
    | .ok fullResponse =>
      -- strip the 2-byte big-endian length prefix: `getUint16(0)` then
      -- `slice(2, 2 + responseLength)`
      { status := 200
      , body := .bytes
          ((fullResponse.drop 2).take (fullResponse.getD 0 0 * 256 + fullResponse.getD 1 0)) }
    | .error _ =>
      match fetchOutcome with
      | .ok resp => resp
      | .error msg => handleError "DoT and subsequent DoH fallback" msg 500

/-- C7 is a code bug: when both the DoT socket exchange and the DoH-via-fetch
fallback fail, `DoTProxy.handleDnsQuery` returns status 500, not the 502 the
specification prescribes — the `handleError` call at the end of the fallback
`catch` omits the status argument, which defaults to 500 (the sibling DoH and
Fetch DNS paths pass 502 explicitly). -/
theorem dot_double_failure_returns_500 :
    (dotHandleDnsQuery
      { method := "POST", headers := [("content-type", "application/dns-message")]
      , body := [0, 1], bodyUsed := false }
      (.error "connection failed") (.error "Network connection failure")).status = 500
    ∧ (dotHandleDnsQuery
      { method := "POST", headers := [("content-type", "application/dns-message")]
      , body := [0, 1], bodyUsed := false }
      (.error "connection failed") (.error "Network connection failure")).status ≠ 502 := by
  constructor
  · rfl
  · intro h
    rw [show (dotHandleDnsQuery
      { method := "POST", headers := [("content-type", "application/dns-message")]
      , body := [0, 1], bodyUsed := false }
      (.error "connection failed") (.error "Network connection failure")).status = 500
      from rfl] at h
    omega

/-! ## `Socks5Proxy.socks5Connect` (src/proxies/socks5.js)

The negotiation is embedded as a function of the parsed SOCKS5 credentials,
the destination, and the three server replies (method selection, auth reply,
CONNECT reply).  It returns the outcome together with the list of byte
buffers written to the socket, in order — which is how the theorems talk
about what was or was not sent before a failure. -/

/-- JavaScript truthiness of an optional string: `undefined` and `""` are
falsy (`if (!username || !password)`). -/
def jsFalsyStr : Option String → Bool
  | none => true
  | some s => s.isEmpty

/-- The coercion `Number(s)` for the dotted-decimal IPv4 pieces: whole-string decimal
parse, `""` is 0, non-digits give `NaN` (`none`). -/
def jsNumberDec (s : String) : Option Nat :=
  if s.data = [] then some 0
  else if s.data.all (fun c => 48 ≤ c.toNat ∧ c.toNat ≤ 57) then
    some (parseDecLoop s.data 0)
  else none

/-- The call `parseInt(s, 16)` on the IPv6 group halves. -/
def parseHexStr (s : String) : Option Nat :=
  parseHexBytes (s.data.map Char.toNat)

/-- Storing a parsed number into a `Uint8Array`: `NaN` becomes 0, larger
values are truncated mod 256. -/
def jsByte (x : Option Nat) : Nat :=
  x.getD 0 % 256

/-- The `switch (addressType)` building `DSTADDR = ATYP + DST.ADDR`. -/
def socks5BuildDstAddr (addressType : Nat) (addressRemote : String) :
    Except String (List Nat) :=
  match addressType with
  | 1 => .ok (1 :: (splitChar '.' addressRemote.data).map
      (fun cs => jsByte (jsNumberDec (String.mk cs))))
  | 2 => .ok (3 :: addressRemote.length % 256 :: (strBytes addressRemote).map (· % 256))
  | 3 => .ok (4 :: (splitChar ':' addressRemote.data).flatMap (fun g =>
      [jsByte (parseHexStr (String.mk (g.take 2))), jsByte (parseHexStr (String.mk (g.drop 2)))]))
  | _ => .error ("invalid addressType is " ++ toString addressType)

/-- The username/password sub-negotiation entered when the server selected
method `0x02`; yields the updated write list or the thrown error. -/
def socks5AuthStage (username password : Option String) (r1 : Nat) (authReply : List Nat)
    (w1 : List (List Nat)) : Except String Unit × List (List Nat) :=
  if r1 = 2 then
    if jsFalsyStr username || jsFalsyStr password then
      (.error "please provide username/password", w1)
    else
      let u := username.getD ""
      let p := password.getD ""
      let authRequest := ([1, u.length] ++ strBytes u ++ [p.length] ++ strBytes p).map (· % 256)
      if authReply.getD 0 0 = 1 ∧ authReply.getD 1 0 = 0 then
        (.ok (), w1 ++ [authRequest])
      else
        (.error "fail to auth socks server", w1 ++ [authRequest])
  else (.ok (), w1)

/-- Function `Socks5Proxy.socks5Connect`: greeting, method check, optional auth,
CONNECT request, CONNECT reply check. -/
def socks5Connect (username password : Option String) (addressType : Nat)
    (addressRemote : String) (portRemote : Nat)
    (methodReply authReply connectReply : List Nat) :
    Except String Unit × List (List Nat) :=
  let w1 : List (List Nat) := [[5, 2, 0, 2]]
  if methodReply.getD 0 0 ≠ 5 then
    (.error ("socks server version error: " ++ toString (methodReply.getD 0 0)
      ++ " expected: 5"), w1)
  else if methodReply.getD 1 0 = 255 then
    (.error "no acceptable methods", w1)
  else
    match socks5AuthStage username password (methodReply.getD 1 0) authReply w1 with
    | (.error e, w) => (.error e, w)
    | (.ok _, w2) =>
      match socks5BuildDstAddr addressType addressRemote with
      | .error e => (.error e, w2)
      | .ok dstAddr =>
        let socksRequest :=
          (([5, 1, 0] ++ dstAddr) ++ [portRemote >>> 8, portRemote &&& 255]).map (· % 256)
        let w3 := w2 ++ [socksRequest]
        if connectReply.getD 1 0 = 0 then (.ok (), w3)
        else (.error "fail to open socks connection", w3)

/-- C10: when the method-selection reply picks username/password (`05 02`)
but the configured SOCKS5 address supplies no username or no password,
`socks5Connect` throws `"please provide username/password"` having written
only the greeting `05 02 00 02` — in particular no CONNECT request bytes
(which would start `05 01 00`) were written to the socket. -/
theorem socks5_auth_missing_credentials (username password : Option String)
    (addressRemote : String) (portRemote : Nat)
    (methodReply authReply connectReply : List Nat)
    (hver : methodReply.getD 0 0 = 5) (hmeth : methodReply.getD 1 0 = 2)
    (hcred : (jsFalsyStr username || jsFalsyStr password) = true) :
    socks5Connect username password 2 addressRemote portRemote methodReply authReply connectReply
      = (.error "please provide username/password", [[5, 2, 0, 2]]) := by
  rw [socks5Connect]
  simp only [hver, hmeth]
  rw [if_neg (by omega), if_neg (by omega)]
  rw [socks5AuthStage, if_pos rfl, if_pos hcred]

/-- Concrete instance: a password-less SOCKS5 address against a server
demanding auth fails before anything beyond the greeting is sent. -/
theorem socks5_auth_missing_credentials_witness :
    socks5Connect none (some "pw") 2 "example.com" 443 [5, 2] [] []
      = (.error "please provide username/password", [[5, 2, 0, 2]]) :=
  socks5_auth_missing_credentials none (some "pw") "example.com" 443 [5, 2] [] []
    (by decide) (by decide) (by decide)

end SpectreProxy
